import Mathlib

/-!
Verification of the ScriptAIble screenplay editor against its specification.

This file gives a shallow embedding, in Lean 4, of the parts of the
repository that the specification's claims are about:

* the per-line element classifier `detectElementType` shared by
  `ScreenplayEditor.tsx` and the Final-Draft converter, and the variant used
  by the Slate editor (`SlateScreenplayEditor`);
* the scene-board extraction (`SceneBoard.tsx`);
* the statistics service (`services/statistics.ts`);
* the version store (`stores/versionStore.ts`);
* a model of the core block lexer, which lives in the external
  fountain-js package and is therefore modelled from the specification.

JavaScript string semantics (trimming, the whitespace class of regexes,
truthiness of strings) are reproduced explicitly.  JS strings are indexed by
UTF-16 code units while Lean strings are sequences of code points; the two
agree on all text of the Basic Multilingual Plane, which is the granularity
at which every claim below is stated.
-/

set_option autoImplicit false

namespace ScriptAIble

/-- Whitespace class of JavaScript: the set matched by the regex class
backslash-s and stripped by the trim method. -/
def jsWhitespaceChar (c : Char) : Bool :=
  c == ' ' || c == '\t' || c == '\n' || c == '\r' || c == '\x0b' || c == '\x0c' ||
  c == '\u00a0' || c == '\u1680' || ('\u2000' ≤ c && c ≤ '\u200a') ||
  c == '\u2028' || c == '\u2029' || c == '\u202f' || c == '\u205f' ||
  c == '\u3000' || c == '\ufeff'

/-- Strip leading and trailing JS whitespace from a character list
(the trim method of JS strings). -/
def jsTrimList (l : List Char) : List Char :=
  ((l.dropWhile jsWhitespaceChar).reverse.dropWhile jsWhitespaceChar).reverse

/-- Strip leading and trailing JS whitespace from a string. -/
def jsTrim (s : String) : String :=
  String.mk (jsTrimList s.data)

/-- Decide whether the first list is an initial segment of the second. -/
def hasPrefixL : List Char → List Char → Bool
  | [], _ => true
  | _ :: _, [] => false
  | p :: ps, c :: cs => p == c && hasPrefixL ps cs

/-- Decide whether the first list is a final segment of the second. -/
def hasSuffixL (suf l : List Char) : Bool :=
  hasPrefixL suf.reverse l.reverse

/-- Decide whether the first list occurs contiguously inside the second
(the includes method of JS strings). -/
def hasSubstrL (sub : List Char) : List Char → Bool
  | [] => hasPrefixL sub []
  | c :: cs => hasPrefixL sub (c :: cs) || hasSubstrL sub cs

/-- Characters the JS regex dot refuses to match (line terminators). -/
def isLineTerm (c : Char) : Bool :=
  c == '\n' || c == '\r' || c == '\u2028' || c == '\u2029'

/-- A character the JS regex dot accepts. -/
def notNewline (c : Char) : Bool := !(isLineTerm c)

/-- Uppercase Latin letter, the regex class A through Z. -/
def isUpperAZ (c : Char) : Bool := 'A' ≤ c && c ≤ 'Z'

/-! ### The editor's per-line element classifier

`ScreenplayEditor.tsx` (`detectElementType`, lines 81-107) and the
Final-Draft converter (`FinalDraftConverter.detectElementType`) share this
logic verbatim, up to the spelling of the returned labels.  Each regex of
the source is transcribed as an executable predicate on the trimmed
character list. -/

/-- The closed set of element types the editor classifier can produce. -/
inductive ElementType where
  | scene_heading
  | action
  | character
  | dialogue
  | parenthetical
  | transition
deriving DecidableEq, Repr

/-- Test for the anchored regex matching a scene heading: the line starts
with INT. or EXT. or EST. (case sensitive). -/
def sceneHeadTest (l : List Char) : Bool :=
  hasPrefixL "INT.".data l || hasPrefixL "EXT.".data l || hasPrefixL "EST.".data l

/-- Test for the fully anchored character-cue regex: one uppercase letter
followed by uppercase letters and whitespace only.  The source additionally
requires that the trimmed line does not end with a period. -/
def charCueTest (l : List Char) : Bool :=
  (match l with
   | [] => false
   | c :: cs => isUpperAZ c && cs.all (fun d => isUpperAZ d || jsWhitespaceChar d)) &&
  !(hasSuffixL ['.'] l)

/-- Test for the fully anchored parenthetical regex: an opening parenthesis,
any run of non-line-terminator characters, a closing parenthesis. -/
def parenTest (l : List Char) : Bool :=
  hasPrefixL ['('] l && hasSuffixL [')'] l && decide (2 ≤ l.length) &&
  ((l.drop 1).dropLast.all notNewline)

/-- One alternative of the transition-head regex: the given head word, any
run of dot-matchable characters, then a final colon. -/
def transAltTest (p : List Char) (l : List Char) : Bool :=
  hasPrefixL p l && decide (p.length + 1 ≤ l.length) &&
  hasSuffixL [':'] l && ((l.drop p.length).dropLast.all notNewline)

/-- Test for the transition rule: the anchored alternation FADE, CUT,
DISSOLVE or SMASH CUT followed by a colon at the end, or the unanchored
regex asking for a final TO with colon (unanchored, hence equivalent to a
suffix test). -/
def transTest (l : List Char) : Bool :=
  (transAltTest "FADE".data l || transAltTest "CUT".data l ||
   transAltTest "DISSOLVE".data l || transAltTest "SMASH CUT".data l) ||
  hasSuffixL "TO:".data l

/-- Classifier core on the trimmed character list, in the source's rule
order: empty, scene heading, character, parenthetical, transition, default
action. -/
def detectCore (t : List Char) : ElementType :=
  if t = [] then .action
  else if sceneHeadTest t then .scene_heading
  else if charCueTest t then .character
  else if parenTest t then .parenthetical
  else if transTest t then .transition
  else .action

/-- Auto-detection of a line's element type, from `ScreenplayEditor.tsx`
lines 81-107 (identical to `FinalDraftConverter.detectElementType` in the
FDX service, with string labels in place of the enumeration). -/
def detectElementType (lineText : String) : ElementType :=
  detectCore (jsTrimList lineText.data)

/-! ### The Slate editor's variant

`SlateScreenplayEditor` uses the same rules except that its parenthetical
rule fires as soon as the line starts with an opening parenthesis, and
`textToSlateValue` applies the classifier line by line. -/

/-- Classifier core of the Slate editor: identical to `detectCore` except
for the relaxed parenthetical rule. -/
def detectCoreSlate (t : List Char) : ElementType :=
  if t = [] then .action
  else if sceneHeadTest t then .scene_heading
  else if charCueTest t then .character
  else if hasPrefixL ['('] t then .parenthetical
  else if transTest t then .transition
  else .action

/-- Per-line auto-detection used by the Slate editor
(`SlateScreenplayEditor`, detectElementType). -/
def detectElementTypeSlate (lineText : String) : ElementType :=
  detectCoreSlate (jsTrimList lineText.data)

/-- Split a character list at every newline, keeping empty segments, the
way the JS split method with a newline separator does. -/
def splitNewlineL : List Char → List (List Char)
  | [] => [[]]
  | c :: cs =>
    if c = '\n' then [] :: splitNewlineL cs
    else
      match splitNewlineL cs with
      | [] => [[c]]
      | l :: ls => (c :: l) :: ls

/-- The JS split method with separator a newline. -/
def jsSplitNewline (s : String) : List String :=
  (splitNewlineL s.data).map String.mk

/-- One block node of the Slate document: an element type and the raw line
text. -/
structure SlateNode where
  type : ElementType
  text : String
deriving DecidableEq, Repr

/-- Conversion of Fountain text to a Slate document (`textToSlateValue`):
blank input yields a single empty action node, otherwise each line is
classified independently of its neighbours. -/
def textToSlateValue (text : String) : List SlateNode :=
  if jsTrim text = "" then [⟨.action, ""⟩]
  else (jsSplitNewline text).map (fun line => ⟨detectElementTypeSlate line, line⟩)

/-! ### The token stream

The closed set of token types of the consumer contract (specification §6),
together with `general` (handled by the statistics service) and `lyric`
(produced by the lexer for forced lyric lines).  The Lean constructor
`sectionHeading` stands for the source's `section` type, which is a Lean
keyword. -/

/-- Token types of the fountain token stream. -/
inductive TType where
  | scene_heading
  | action
  | character
  | dialogue
  | parenthetical
  | transition
  | dialogue_begin
  | dialogue_end
  | dual_dialogue_begin
  | dual_dialogue_end
  | sectionHeading
  | synopsis
  | note
  | page_break
  | centered
  | lyric
  | general
deriving DecidableEq, Repr

/-- A token of the stream.  The text field is a plain string; the empty
string stands for both an absent and an empty text, which JS treats alike
(both falsy) everywhere in the consumers below.  The remaining fields are
optional exactly as in the source. -/
structure Token where
  type : TType
  text : String := ""
  html : Option String := none
  dual : Option Bool := none
  sceneNumber : Option String := none
  depth : Option Nat := none
deriving DecidableEq, Repr

/-! ### Scene board extraction (`SceneBoard.tsx`)

`parseSceneHeading` applies the case-insensitive regex
`(INT.|EXT.|EST.)` `\s*` lazy-dot-plus `\s*` dash `\s*` dot-plus, anchored
on both sides, to a heading; the backtracking search of the JS engine is
reproduced literally: the leading whitespace run is tried greedily from
longest to shortest, the lazy group from shortest to longest, and the final
group is the longest suffix the dot can match. -/

/-- Length of the leading JS-whitespace run. -/
def leadWs (l : List Char) : Nat := (l.takeWhile jsWhitespaceChar).length

/-- Strip one of the alternatives INT., EXT., EST. case-insensitively. -/
def stripScenePrefixCI (l : List Char) : Option (List Char) :=
  match l with
  | c0 :: c1 :: c2 :: c3 :: rest =>
    if (c0.toLower == 'i' && c1.toLower == 'n' && c2.toLower == 't' && c3 == '.') ||
       (c0.toLower == 'e' && c1.toLower == 'x' && c2.toLower == 't' && c3 == '.') ||
       (c0.toLower == 'e' && c1.toLower == 's' && c2.toLower == 't' && c3 == '.')
    then some rest else none
  | _ => none

/-- Backtracking of a final greedy whitespace star followed by an anchored
dot-plus group: try dropping k characters, then k-1, ..., returning the
first nonempty newline-free suffix. -/
def pickSuffix : Nat → List Char → Option (List Char)
  | 0, r => if r ≠ [] ∧ r.all notNewline then some r else none
  | k + 1, r =>
    let s := r.drop (k + 1)
    if s ≠ [] ∧ s.all notNewline then some s else pickSuffix k r

/-- The tail pattern whitespace-star dash whitespace-star dot-plus of the
scene-heading regex, returning the final captured group. -/
def sceneTailMatch (rem : List Char) : Option (List Char) :=
  let r := rem.drop (leadWs rem)
  match r with
  | '-' :: r2 => pickSuffix (leadWs r2) r2
  | _ => none

/-- The lazy dot-plus group: extend the captured text one character at a
time (shortest first, as a lazy quantifier does) until the tail pattern
matches; a line terminator stops the search since the dot cannot cross
it. -/
def lazySplit (acc : List Char) : List Char → Option (List Char × List Char)
  | [] => none
  | c :: rest =>
    if notNewline c then
      match sceneTailMatch rest with
      | some g3 => some (acc ++ [c], g3)
      | none => lazySplit (acc ++ [c]) rest
    else none

/-- The greedy leading whitespace star: try consuming w characters of
whitespace, then w-1, ..., down to zero. -/
def sceneBodyMatch (rest : List Char) : Nat → Option (List Char × List Char)
  | 0 => lazySplit [] rest
  | w + 1 =>
    match lazySplit [] (rest.drop (w + 1)) with
    | some r => some r
    | none => sceneBodyMatch rest w

/-- The full scene-heading location-and-time regex: captured groups for the
location and the time of day, or none when the heading has no dash
pattern. -/
def sceneHeadingMatch (l : List Char) : Option (List Char × List Char) :=
  match stripScenePrefixCI l with
  | some rest => sceneBodyMatch rest (leadWs rest)
  | none => none

/-- The fallback regex of `parseSceneHeading`: prefix, whitespace star and
a final dot-plus group holding the whole location. -/
def sceneFallbackMatch (l : List Char) : Option (List Char) :=
  match stripScenePrefixCI l with
  | some rest => pickSuffix (leadWs rest) rest
  | none => none

/-- Location and time of day extracted from a scene heading
(`parseSceneHeading`, SceneBoard.tsx lines 86-102). -/
def parseSceneHeading (heading : String) : String × String :=
  match sceneHeadingMatch heading.data with
  | some (g2, g3) => (String.mk (jsTrimList g2), String.mk (jsTrimList g3))
  | none =>
    match sceneFallbackMatch heading.data with
    | some g2 => (String.mk (jsTrimList g2), "UNKNOWN")
    | none => (heading, "UNKNOWN")

/-- A card of the scene board. -/
structure Scene where
  id : String
  heading : String
  location : String
  timeOfDay : String
  description : String
  characters : List String
  pageNumber : Nat
deriving DecidableEq, Repr

/-- Number of codepoints of a string (the JS length, agreeing on the
Basic Multilingual Plane). -/
def strLen (s : String) : Nat := s.data.length

/-- The token loop of `extractScenes` (SceneBoard.tsx lines 34-76): scene
headings open a new card, action text extends the description while it is
short, character cues are collected without duplicates, all other tokens
are ignored. -/
def extractScenesGo : List Token → Option Scene → Nat → List Scene
  | [], cur, _ =>
    match cur with
    | some s => [s]
    | none => []
  | t :: ts, cur, counter =>
    if t.type = .scene_heading ∧ t.text ≠ "" then
      let counter2 := counter + 1
      let heading := jsTrim t.text
      let lt := parseSceneHeading heading
      let newScene : Scene :=
        { id := "scene-" ++ toString counter2
          heading := heading
          location := lt.1
          timeOfDay := lt.2
          description := ""
          characters := []
          pageNumber := (counter2 + 2) / 3 }
      match cur with
      | some s => s :: extractScenesGo ts (some newScene) counter2
      | none => extractScenesGo ts (some newScene) counter2
    else
      match cur with
      | none => extractScenesGo ts none counter
      | some s =>
        if t.type = .action ∧ t.text ≠ "" then
          let s2 :=
            if strLen s.description < 100 then
              { s with description :=
                  s.description ++ (if s.description ≠ "" then " " else "") ++ jsTrim t.text }
            else s
          extractScenesGo ts (some s2) counter
        else if t.type = .character ∧ t.text ≠ "" then
          let ch := jsTrim t.text
          let s2 :=
            if s.characters.contains ch then s
            else { s with characters := s.characters ++ [ch] }
          extractScenesGo ts (some s2) counter
        else
          extractScenesGo ts (some s) counter

/-- Scene extraction from a token stream (`extractScenes`). -/
def extractScenes (tokens : List Token) : List Scene :=
  extractScenesGo tokens none 0

/-- The token types the scene board reads. -/
def sceneRelevant (t : Token) : Bool :=
  t.type = TType.scene_heading || t.type = TType.character || t.type = TType.action

/-! ### Statistics service (`services/statistics.ts`)

Fractional arithmetic of the source (the 1.3 dialogue weighting, percentage
rounding to one decimal) is carried out in the rationals; every constant of
the source is exactly representable, so the numeric behaviour matches the
JS doubles on all realistic magnitudes. -/

/-- Count maximal runs of non-whitespace characters. -/
def wordRunsGo (inWord : Bool) : List Char → Nat
  | [] => 0
  | c :: rest =>
    if jsWhitespaceChar c then wordRunsGo false rest
    else (if inWord then 0 else 1) + wordRunsGo true rest

/-- Count the words of a character list: maximal non-whitespace runs. -/
def wordRuns (l : List Char) : Nat := wordRunsGo false l

/-- Length of the array produced by trimming a string and splitting it on
runs of whitespace, as the JS idiom of the source does: an all-whitespace
string yields a single empty segment, hence length one. -/
def jsSplitWsLen (s : String) : Nat :=
  let t := jsTrimList s.data
  if t = [] then 1 else wordRuns t

/-- Floor of a rational as an integer. -/
def ratFloor (q : ℚ) : Int := Int.fdiv q.num q.den

/-- The JS Math.ceil on a rational. -/
def jsCeil (q : ℚ) : Int := -(ratFloor (-q))

/-- The JS Math.round on a rational: half rounds up. -/
def jsRound (q : ℚ) : Int := ratFloor (q + 1/2)

/-- Round to one decimal place, the idiom Math.round of ten times the value
divided by ten. -/
def round1 (q : ℚ) : ℚ := (jsRound (q * 10) : ℚ) / 10

/-- The JS join with a single-space separator. -/
def joinSpace : List String → String
  | [] => ""
  | [s] => s
  | s :: rest => s ++ " " ++ joinSpace rest

/-- Per-character statistics record. -/
structure CharacterStats where
  name : String
  lineCount : Nat
  wordCount : Nat
  speechCount : Nat
  averageWordsPerSpeech : ℚ
  firstAppearance : Nat
  lastAppearance : Nat
  percentageOfDialogue : ℚ
deriving DecidableEq, Repr

/-- One attributed dialogue speech. -/
structure DialogueEntry where
  character : String
  text : String
  wordCount : Nat
  lineNumber : Nat
deriving DecidableEq, Repr

/-- The full statistics record returned by `calculateStatistics`.  The
character map is modelled as an association list in insertion order, the
order JS objects preserve for string keys. -/
structure ScriptStatistics where
  pageCount : Int
  wordCount : Nat
  characterCount : Nat
  characterCountNoSpaces : Nat
  sceneCount : Nat
  dialoguePercentage : ℚ
  actionPercentage : ℚ
  characterStats : List (String × CharacterStats)
  totalCharacters : Nat
  estimatedRuntimeMinutes : Int
  intScenes : Nat
  extScenes : Nat
  dayScenes : Nat
  nightScenes : Nat
  averageDialogueLength : ℚ
  longestDialogue : DialogueEntry
  dialoguePages : Int
  actionPages : Int
deriving DecidableEq, Repr

/-- Sum of per-token word counts over dialogue tokens with text
(`countDialogueWords`). -/
def countDialogueWords (tokens : List Token) : Nat :=
  (tokens.filter (fun t => t.type == TType.dialogue && t.text != "")).foldl
    (fun count t => count + jsSplitWsLen t.text) 0

/-- Sum of per-token word counts over all tokens with text
(`countAllWords`). -/
def countAllWords (tokens : List Token) : Nat :=
  (tokens.filter (fun t => t.text != "")).foldl
    (fun count t => count + jsSplitWsLen t.text) 0

/-- Result of `calculateBasicStats`. -/
structure BasicStats where
  pageCount : Int
  wordCount : Nat
  characterCount : Nat
  characterCountNoSpaces : Nat
  estimatedRuntimeMinutes : Int
deriving DecidableEq, Repr

/-- Basic counts and page estimate (`calculateBasicStats`, statistics.ts
lines 76-108): all texts joined by spaces, dialogue words weighted 1.3 for
the page estimate, and a floor of one page. -/
def calculateBasicStats (tokens : List Token) : BasicStats :=
  let allText := joinSpace ((tokens.filter (fun t => t.text != "")).map Token.text)
  let wordCount := if jsTrimList allText.data = [] then 0 else wordRuns (jsTrimList allText.data)
  let characterCount := strLen allText
  let characterCountNoSpaces := (allText.data.filter (fun c => !jsWhitespaceChar c)).length
  let dialogueWords := countDialogueWords tokens
  let actionWords : Int := (wordCount : Int) - (dialogueWords : Int)
  let adjustedWordCount : ℚ := (actionWords : ℚ) + (dialogueWords : ℚ) * (13 / 10)
  let pageCount : Int := max 1 (jsCeil (adjustedWordCount / 200))
  let dialoguePercentage : ℚ :=
    if 0 < wordCount then ((dialogueWords : ℚ) / (wordCount : ℚ)) * 100 else 0
  let runtimeMultiplier : ℚ := if 60 < dialoguePercentage then 9 / 10 else 1
  ⟨pageCount, wordCount, characterCount, characterCountNoSpaces,
    jsRound ((pageCount : ℚ) * runtimeMultiplier)⟩

/-- Result of `calculateElementStats`. -/
structure ElementStats where
  sceneCount : Nat
  dialoguePercentage : ℚ
  actionPercentage : ℚ
deriving DecidableEq, Repr

/-- Dialogue and action shares (`calculateElementStats`). -/
def calculateElementStats (tokens : List Token) : ElementStats :=
  let dialogueTokens := tokens.filter (fun t => t.type == TType.dialogue)
  let actionTokens := tokens.filter (fun t => t.type == TType.action || t.type == TType.general)
  let totalContentTokens := dialogueTokens.length + actionTokens.length
  let dialoguePercentage : ℚ :=
    if 0 < totalContentTokens then
      ((dialogueTokens.length : ℚ) / (totalContentTokens : ℚ)) * 100
    else 0
  let actionPercentage : ℚ := 100 - dialoguePercentage
  let sceneCount := (tokens.filter (fun t => t.type == TType.scene_heading)).length
  ⟨sceneCount, round1 dialoguePercentage, round1 actionPercentage⟩

/-- Lookup in the insertion-ordered association list. -/
def alGet (m : List (String × CharacterStats)) (k : String) : Option CharacterStats :=
  (m.find? (fun p => p.1 == k)).map Prod.snd

/-- Update in place preserving the order, or append, as assignment to a
fresh key of a JS object does. -/
def alSet : List (String × CharacterStats) → String → CharacterStats → List (String × CharacterStats)
  | [], k, v => [(k, v)]
  | (k1, v1) :: rest, k, v =>
    if k1 == k then (k1, v) :: rest else (k1, v1) :: alSet rest k v

/-- Accumulator of the token loop of `calculateCharacterStats`. -/
structure CharFoldState where
  stats : List (String × CharacterStats)
  currentPageEstimate : Nat
  wordsOnPage : Nat
  currentCharacter : String
deriving DecidableEq, Repr

/-- One step of the token loop of `calculateCharacterStats` (statistics.ts
lines 143-186): a rough running page estimate, creation and update of the
per-character record on cues, word and line accumulation on dialogue. -/
def charFoldStep (st0 : CharFoldState) (t : Token) : CharFoldState :=
  let st1 :=
    if t.text != "" then
      let tokenWords := jsSplitWsLen t.text
      let wop := st0.wordsOnPage + tokenWords
      if 200 < wop then
        { st0 with currentPageEstimate := st0.currentPageEstimate + 1, wordsOnPage := tokenWords }
      else { st0 with wordsOnPage := wop }
    else st0
  let st2 :=
    if t.type == TType.character && t.text != "" then
      let characterName := (jsTrim t.text).toUpper
      let stA :=
        match alGet st1.stats characterName with
        | some _ => st1
        | none =>
          let init : CharacterStats :=
            { name := characterName, lineCount := 0, wordCount := 0, speechCount := 0,
              averageWordsPerSpeech := 0, firstAppearance := st1.currentPageEstimate,
              lastAppearance := st1.currentPageEstimate, percentageOfDialogue := 0 }
          { st1 with stats := alSet st1.stats characterName init }
      let stB := { stA with currentCharacter := characterName }
      match alGet stB.stats characterName with
      | some cs =>
        let upd : CharacterStats :=
          { cs with lastAppearance := stB.currentPageEstimate, speechCount := cs.speechCount + 1 }
        { stB with stats := alSet stB.stats characterName upd }
      | none => stB
    else st1
  if t.type == TType.dialogue && t.text != "" && st2.currentCharacter != "" then
    match alGet st2.stats st2.currentCharacter with
    | some cs =>
      let words := jsSplitWsLen t.text
      let lines := (splitNewlineL t.text.data).length
      let upd : CharacterStats :=
        { cs with wordCount := cs.wordCount + words, lineCount := cs.lineCount + lines }
      { st2 with stats := alSet st2.stats st2.currentCharacter upd }
    | none => st2
  else st2

/-- Result of `calculateCharacterStats`. -/
structure CharacterStatsResult where
  characterStats : List (String × CharacterStats)
  totalCharacters : Nat
deriving DecidableEq, Repr

/-- Character statistics (`calculateCharacterStats`): the token loop
followed by the derived averages pass over the collected records. -/
def calculateCharacterStats (tokens : List Token) : CharacterStatsResult :=
  let dialogueWords := countDialogueWords tokens
  let final := tokens.foldl charFoldStep ⟨[], 1, 0, ""⟩
  let derived := final.stats.map (fun p =>
    (p.1,
     { p.2 with
        averageWordsPerSpeech :=
          if 0 < p.2.speechCount then
            (jsRound (((p.2.wordCount : ℚ) / (p.2.speechCount : ℚ)) * 10) : ℚ) / 10
          else 0,
        percentageOfDialogue :=
          if 0 < dialogueWords then
            (jsRound (((p.2.wordCount : ℚ) / (dialogueWords : ℚ)) * 1000) : ℚ) / 10
          else 0 }))
  ⟨derived, derived.length⟩

/-- Result of `calculateSceneStats`. -/
structure SceneStats where
  intScenes : Nat
  extScenes : Nat
  dayScenes : Nat
  nightScenes : Nat
deriving DecidableEq, Repr

/-- One scene-heading token of `calculateSceneStats`: interior/exterior by
prefix of the uppercased text, day/night by substring. -/
def sceneStatStep (st : SceneStats) (t : Token) : SceneStats :=
  if t.text == "" then st
  else
    let l := t.text.toUpper.data
    let st1 :=
      if hasPrefixL "INT.".data l then { st with intScenes := st.intScenes + 1 }
      else if hasPrefixL "EXT.".data l then { st with extScenes := st.extScenes + 1 }
      else st
    if hasSubstrL " DAY".data l || hasSubstrL " MORNING".data l || hasSubstrL " DAWN".data l then
      { st1 with dayScenes := st1.dayScenes + 1 }
    else if hasSubstrL " NIGHT".data l || hasSubstrL " EVENING".data l || hasSubstrL " DUSK".data l then
      { st1 with nightScenes := st1.nightScenes + 1 }
    else st1

/-- Scene breakdown (`calculateSceneStats`). -/
def calculateSceneStats (tokens : List Token) : SceneStats :=
  (tokens.filter (fun t => t.type == TType.scene_heading)).foldl sceneStatStep ⟨0, 0, 0, 0⟩

/-- Result of `calculateDialogueStats`. -/
structure DialogueStatsResult where
  averageDialogueLength : ℚ
  longestDialogue : DialogueEntry
  dialoguePages : Int
  actionPages : Int
deriving DecidableEq, Repr

/-- One step of the token loop of `calculateDialogueStats`: the running
line number, the current speaker, and the collected speeches. -/
def dlgFoldStep (st : List DialogueEntry × String × Nat) (t : Token) :
    List DialogueEntry × String × Nat :=
  let ln := st.2.2 + 1
  let cur := if t.type == TType.character && t.text != "" then (jsTrim t.text).toUpper else st.2.1
  if t.type == TType.dialogue && t.text != "" && cur != "" then
    (st.1 ++ [{ character := cur, text := t.text, wordCount := jsSplitWsLen t.text,
                lineNumber := ln }], cur, ln)
  else (st.1, cur, ln)

/-- Dialogue analysis (`calculateDialogueStats`): averages, the longest
speech (first maximum wins), and the page split between dialogue and
action. -/
def calculateDialogueStats (tokens : List Token) : DialogueStatsResult :=
  let fs := tokens.foldl dlgFoldStep ([], "", 0)
  let dialogues := fs.1
  let totalDialogueWords : Nat := dialogues.foldl (fun a d => a + d.wordCount) 0
  let averageDialogueLength : ℚ :=
    if 0 < dialogues.length then
      (jsRound (((totalDialogueWords : ℚ) / (dialogues.length : ℚ)) * 10) : ℚ) / 10
    else 0
  let longestDialogue :=
    dialogues.foldl (fun longest current =>
      if longest.wordCount < current.wordCount then current else longest) ⟨"", "", 0, 0⟩
  let totalWords := countAllWords tokens
  let actionWords : Int := (totalWords : Int) - (totalDialogueWords : Int)
  let dialoguePages := jsCeil (((totalDialogueWords : ℚ) * (13 / 10)) / 200)
  let actionPages := jsCeil ((actionWords : ℚ) / 250)
  ⟨averageDialogueLength, longestDialogue, dialoguePages, actionPages⟩

/-- The statistics entry point (`StatisticsCalculator.calculateStatistics`,
statistics.ts lines 58-74): the five partial computations spread into one
record. -/
def calculateStatistics (tokens : List Token) : ScriptStatistics :=
  let basic := calculateBasicStats tokens
  let element := calculateElementStats tokens
  let charStats := calculateCharacterStats tokens
  let scene := calculateSceneStats tokens
  let dlg := calculateDialogueStats tokens
  { pageCount := basic.pageCount
    wordCount := basic.wordCount
    characterCount := basic.characterCount
    characterCountNoSpaces := basic.characterCountNoSpaces
    estimatedRuntimeMinutes := basic.estimatedRuntimeMinutes
    sceneCount := element.sceneCount
    dialoguePercentage := element.dialoguePercentage
    actionPercentage := element.actionPercentage
    characterStats := charStats.characterStats
    totalCharacters := charStats.totalCharacters
    intScenes := scene.intScenes
    extScenes := scene.extScenes
    dayScenes := scene.dayScenes
    nightScenes := scene.nightScenes
    averageDialogueLength := dlg.averageDialogueLength
    longestDialogue := dlg.longestDialogue
    dialoguePages := dlg.dialoguePages
    actionPages := dlg.actionPages }

/-- Result of `getQuickStats`. -/
structure QuickStats where
  pages : Int
  words : Nat
  scenes : Nat
  characters : Nat
  runtime : String
deriving DecidableEq, Repr

/-- The quick statistics utility (`getQuickStats`, statistics.ts lines
307-318). -/
def getQuickStats (tokens : List Token) : QuickStats :=
  let stats := calculateStatistics tokens
  ⟨stats.pageCount, stats.wordCount, stats.sceneCount, stats.totalCharacters,
    toString stats.estimatedRuntimeMinutes ++ " min"⟩

/-! ### Version store (`stores/versionStore.ts`)

The zustand store is modelled as a record of total maps from script ids to
optional arrays, mirroring the JS records in which a key can be absent.
The two sources of nondeterminism of `saveVersion` (the timestamp and the
generated id) are passed in explicitly. -/

/-- The operation tag of a version entry; `imported` stands for the source
label import, a Lean keyword. -/
inductive VOp where
  | create
  | edit
  | save
  | imported
deriving DecidableEq, Repr

/-- One stored version. -/
structure VersionEntry where
  id : String
  scriptId : String
  timestamp : Nat
  content : String
  author : String
  operation : VOp
  contentHash : String
  description : Option String
deriving DecidableEq, Repr

/-- The version store state: three script-id-indexed maps and the two size
bounds. -/
structure VersionStoreState where
  versions : String → Option (List VersionEntry)
  undoStack : String → Option (List VersionEntry)
  redoStack : String → Option (List VersionEntry)
  maxVersions : Nat
  maxUndoRedo : Nat

/-- Reduce an integer to the signed 32-bit range, the JS ToInt32
conversion applied by the bitwise operators. -/
def toInt32 (x : Int) : Int := (x + 2 ^ 31) % 2 ^ 32 - 2 ^ 31

/-- The hash loop of `simpleHash`: shift left five, subtract, add the char
code, truncate to 32 bits.  JS walks UTF-16 units; code points coincide on
the Basic Multilingual Plane. -/
def simpleHashLoop (h : Int) : List Char → Int
  | [] => h
  | c :: rest => simpleHashLoop (toInt32 (toInt32 (h * 32) - h + (c.toNat : Int))) rest

/-- Lowercase hexadecimal rendering of a natural number, as the JS
toString with radix sixteen produces. -/
def natToHex (n : Nat) : String := (Nat.toDigits 16 n).asString

/-- Hexadecimal rendering of an integer, negative values with a leading
minus sign, as JS renders negative numbers in radix sixteen. -/
def intToHex (x : Int) : String :=
  if x < 0 then "-" ++ natToHex x.natAbs else natToHex x.natAbs

/-- The content hash (`simpleHash`, versionStore.ts lines 49-57). -/
def simpleHash (s : String) : String :=
  intToHex (simpleHashLoop 0 s.data)

/-- Point update of a script-id-indexed map. -/
def updF (f : String → Option (List VersionEntry)) (k : String) (v : List VersionEntry) :
    String → Option (List VersionEntry) :=
  fun x => if x = k then some v else f x

/-- The save action (`saveVersion`, versionStore.ts lines 75-121): arrays
are initialised when absent, a save whose hash equals the hash of the most
recent version is skipped, otherwise the new entry is unshifted onto the
versions array, pushed onto the undo stack for edit and save operations
(clearing the redo stack and trimming the undo stack), and the versions
array is trimmed to the bound. -/
def saveVersion (st : VersionStoreState) (scriptId content : String) (operation : VOp)
    (description : Option String) (timestamp : Nat) (newId : String) : VersionStoreState :=
  let contentHash := simpleHash content
  let vers := (st.versions scriptId).getD []
  let undo := (st.undoStack scriptId).getD []
  let redo := (st.redoStack scriptId).getD []
  let st1 : VersionStoreState :=
    { st with
        versions := updF st.versions scriptId vers
        undoStack := updF st.undoStack scriptId undo
        redoStack := updF st.redoStack scriptId redo }
  let skip : Bool :=
    match vers.head? with
    | some lastVersion => lastVersion.contentHash == contentHash
    | none => false
  if skip then st1
  else
    let newVersion : VersionEntry :=
      { id := newId, scriptId := scriptId, timestamp := timestamp, content := content,
        author := "User", operation := operation, contentHash := contentHash,
        description := description }
    let vers2 := newVersion :: vers
    let undo2 :=
      if operation = VOp.edit ∨ operation = VOp.save then
        let u := undo ++ [newVersion]
        if st.maxUndoRedo < u.length then u.drop 1 else u
      else undo
    let redo2 : List VersionEntry :=
      if operation = VOp.edit ∨ operation = VOp.save then [] else redo
    let vers3 := if st.maxVersions < vers2.length then vers2.take st.maxVersions else vers2
    { st with
        versions := updF st.versions scriptId vers3
        undoStack := updF st.undoStack scriptId undo2
        redoStack := updF st.redoStack scriptId redo2 }

/-! ### The core block lexer, modelled from the specification

The markup-to-token lexer the specification calls the core lives in the
external fountain-js package, not in this repository's sources; only its
consumers are present.  The definitions below are therefore modelled from
the specification, §4.2: paragraph splitting, the ordered classification
rules, dialogue-block grouping, and the one-slot dual-dialogue buffer.
The title-page parser only removes a prefix of the raw text before the
block lexer runs, so the token stream of a parse is the block lexer's
output on the remaining body; the model takes that body and the theorems
quantify over every body text. -/

/-- A blank line: nothing but whitespace. -/
def blankLine (s : String) : Bool := jsTrimList s.data = []

/-- Modelled from the spec: split the line list into paragraphs, maximal
runs of non-blank lines separated by one or more blank lines. -/
def parasGo : List String → List String → List (List String)
  | [], acc => if acc.isEmpty then [] else [acc.reverse]
  | l :: ls, acc =>
    if blankLine l then
      if acc.isEmpty then parasGo ls [] else acc.reverse :: parasGo ls []
    else parasGo ls (l :: acc)

/-- The paragraphs of a text. -/
def paragraphsOf (text : String) : List (List String) :=
  parasGo (jsSplitNewline text) []

/-- The simultaneity marker ends the cue line. -/
def endsCaret (t : List Char) : Bool := hasSuffixL ['^'] t

/-- Drop a trailing simultaneity marker. -/
def stripCaret (t : List Char) : List Char := if endsCaret t then t.dropLast else t

/-- Case-insensitive prefix test over character lists. -/
def hasPrefixCI (p t : List Char) : Bool :=
  hasPrefixL p ((t.take p.length).map Char.toUpper)

/-- Modelled from the spec: the recognized scene-heading locale-prefix set,
interior, exterior and establishing abbreviations followed by a period or
a space, case-insensitive. -/
def sceneStartSpec (t : List Char) : Bool :=
  hasPrefixCI "INT.".data t || hasPrefixCI "INT ".data t ||
  hasPrefixCI "EXT.".data t || hasPrefixCI "EXT ".data t ||
  hasPrefixCI "EST.".data t || hasPrefixCI "EST ".data t ||
  hasPrefixCI "I/E".data t

/-- Modelled from the spec: a character cue is an all-uppercase line (at
least one letter, no lowercase letter) with no trailing sentence
punctuation, optionally ending with the simultaneity marker. -/
def isCueLineSpec (t : List Char) : Bool :=
  let core := stripCaret t
  !core.isEmpty && core.any (fun c => c.isAlpha) && core.all (fun c => !c.isLower) &&
  !(hasSuffixL ['.'] core || hasSuffixL ['!'] core || hasSuffixL ['?'] core ||
    hasSuffixL [':'] core || hasSuffixL [','] core)

/-- Modelled from the spec: a trailing delimited numbering suffix of a
scene heading is extracted into the scene number and stripped from the
displayed text. -/
def extractSceneNum (t : List Char) : List Char × Option String :=
  match t.reverse with
  | '#' :: r =>
    let numRev := r.takeWhile (fun c => c ≠ '#')
    if numRev ≠ [] ∧ hasPrefixL ['#'] (r.drop numRev.length) then
      (jsTrimList ((r.drop (numRev.length + 1)).reverse), some (String.mk numRev.reverse))
    else (t, none)
  | _ => (t, none)

/-- Build a token with a type and text. -/
def mkTok (ty : TType) (txt : List Char) : Token :=
  { type := ty, text := String.mk txt }

/-- Build a scene-heading token, extracting the scene number. -/
def sceneTok (t : List Char) : Token :=
  let en := extractSceneNum t
  { type := TType.scene_heading, text := String.mk en.1, sceneNumber := en.2 }

/-- Join lines with newlines, the soft line breaks of a multi-line action
paragraph. -/
def joinNlS : List String → String
  | [] => ""
  | [s] => s
  | s :: rest => s ++ "\n" ++ joinNlS rest

/-- Classification result of one paragraph: a dialogue-block opener with
its body, a single plain token, or nothing. -/
inductive ParClass where
  | cue (cueText : List Char) (dual : Bool) (body : List String)
  | plainTok (tok : Token)
  | skip
deriving Repr

/-- Modelled from the spec: the ordered classification rules of §4.2
applied to one paragraph, first match wins: forced markers, page break,
section, synopsis, scene heading, character cue, transition, default
action.  A new cue is only ever encountered after a paragraph break, so a
dialogue block spans the remainder of its own paragraph. -/
def classifyPar (p : List String) : ParClass :=
  match p with
  | [] => .skip
  | l :: body =>
    let t := jsTrimList l.data
    match t with
    | [] => .skip
    | c :: rest =>
      if c = '!' then .plainTok (mkTok .action (joinNlS (String.mk rest :: body)).data)
      else if c = '@' then .cue (stripCaret (jsTrimList rest)) (endsCaret (jsTrimList rest)) body
      else if c = '~' ∧ body.isEmpty then .plainTok (mkTok .lyric (jsTrimList rest))
      else if c = '>' ∧ body.isEmpty then
        if hasSuffixL ['<'] rest then .plainTok (mkTok .centered (jsTrimList rest.dropLast))
        else .plainTok (mkTok .transition (jsTrimList rest))
      else if c = '.' ∧ ¬ hasPrefixL ['.'] rest ∧ body.isEmpty then
        .plainTok (sceneTok (jsTrimList rest))
      else if (t.all fun d => d = '=') ∧ 3 ≤ t.length ∧ body.isEmpty then
        .plainTok (mkTok .page_break t)
      else if c = '#' ∧ body.isEmpty then
        let depth := (t.takeWhile (fun d => d = '#')).length
        .plainTok { type := .sectionHeading,
                    text := String.mk (jsTrimList (t.dropWhile (fun d => d = '#'))),
                    depth := some depth }
      else if c = '=' ∧ body.isEmpty then .plainTok (mkTok .synopsis (jsTrimList rest))
      else if sceneStartSpec t ∧ body.isEmpty then .plainTok (sceneTok t)
      else if isCueLineSpec t then .cue (stripCaret t) (endsCaret t) body
      else if (t.all fun d => !d.isLower) ∧ hasSuffixL "TO:".data t ∧ body.isEmpty then
        .plainTok (mkTok .transition t)
      else .plainTok (mkTok .action (joinNlS p).data)

/-- Modelled from the spec: the body lines of a dialogue block become
parenthetical tokens when wrapped in parentheses and dialogue tokens
otherwise. -/
def mkBlockBody (body : List String) : List Token :=
  body.map (fun l =>
    let t := jsTrimList l.data
    if hasPrefixL ['('] t ∧ hasSuffixL [')'] t then mkTok .parenthetical t
    else mkTok .dialogue t)

/-- Modelled from the spec: the interior of a dialogue block, the cue token
followed by the body tokens; a dual cue carries the dual tag. -/
def mkBlock (cueText : List Char) (dual : Bool) (body : List String) : List Token :=
  { type := TType.character, text := String.mk cueText,
    dual := if dual then some true else none } :: mkBlockBody body

/-- Emit a buffered dialogue block, wrapped in its bracket tokens. -/
def flushBuf : Option (List Token) → List Token
  | none => []
  | some b => mkTok .dialogue_begin [] :: b ++ [mkTok .dialogue_end []]

/-- Emit two adjacent complete dialogue blocks wrapped in the dual
brackets. -/
def dualWrap (b1 b2 : List Token) : List Token :=
  mkTok .dual_dialogue_begin [] ::
    (mkTok .dialogue_begin [] :: b1 ++ [mkTok .dialogue_end []]) ++
    (mkTok .dialogue_begin [] :: b2 ++ [mkTok .dialogue_end []]) ++
    [mkTok .dual_dialogue_end []]

/-- Modelled from the spec: the block lexer's paragraph loop with its
one-slot buffer holding the most recently completed dialogue block.  A
dual-marked cue wraps the buffered block and its own block in the dual
brackets; an unmarked cue flushes the buffer and becomes the new buffered
block; any other paragraph flushes the buffer and emits its token. -/
def lexPars : List (List String) → Option (List Token) → List Token
  | [], buf => flushBuf buf
  | p :: ps, buf =>
    match classifyPar p with
    | .skip => flushBuf buf ++ lexPars ps none
    | .plainTok tk => flushBuf buf ++ tk :: lexPars ps none
    | .cue c d body =>
      let blk := mkBlock c d body
      if d then
        match buf with
        | some b => dualWrap b blk ++ lexPars ps none
        | none => lexPars ps (some blk)
      else flushBuf buf ++ lexPars ps (some blk)

/-- Modelled from the spec: the token stream of a parse of the given body
text. -/
def parse (text : String) : List Token :=
  lexPars (paragraphsOf text) none

/-! ### Well-formedness of dialogue brackets

A deterministic checker for the invariant of the specification: dialogue
brackets balance, never nest, hold only cue, parenthetical and dialogue
tokens, and every dual bracket pair wraps exactly two complete adjacent
dialogue blocks.  State 0 is outside any block; 1 is inside a plain block;
2 through 6 walk through a dual pair: before the first block, inside it,
between the blocks, inside the second, and awaiting the closing dual
bracket. -/

/-- One transition of the bracket checker; none is a violation. -/
def dlgStep (s : Nat) (ty : TType) : Option Nat :=
  match s with
  | 0 =>
    match ty with
    | .dialogue_begin => some 1
    | .dual_dialogue_begin => some 2
    | .dialogue_end => none
    | .dual_dialogue_end => none
    | _ => some 0
  | 1 =>
    match ty with
    | .character => some 1
    | .parenthetical => some 1
    | .dialogue => some 1
    | .dialogue_end => some 0
    | _ => none
  | 2 => match ty with | .dialogue_begin => some 3 | _ => none
  | 3 =>
    match ty with
    | .character => some 3
    | .parenthetical => some 3
    | .dialogue => some 3
    | .dialogue_end => some 4
    | _ => none
  | 4 => match ty with | .dialogue_begin => some 5 | _ => none
  | 5 =>
    match ty with
    | .character => some 5
    | .parenthetical => some 5
    | .dialogue => some 5
    | .dialogue_end => some 6
    | _ => none
  | 6 => match ty with | .dual_dialogue_end => some 0 | _ => none
  | _ => none

/-- Run the bracket checker from a state over a token list. -/
def dlgRun (s : Nat) : List Token → Option Nat
  | [] => some s
  | t :: ts =>
    match dlgStep s t.type with
    | some s2 => dlgRun s2 ts
    | none => none

/-- A token stream has well-formed dialogue brackets when the checker
accepts it from the outside state back to the outside state. -/
def dialogueWellFormed (ts : List Token) : Bool :=
  dlgRun 0 ts == some 0

/-- A token whose type may appear inside a dialogue block. -/
def isContentTok (t : Token) : Bool :=
  t.type == TType.character || t.type == TType.parenthetical || t.type == TType.dialogue

/-- The projection of a token onto the two fields the statistics service
reads: the type and the text, with every other field cleared. -/
def canonTT (t : Token) : Token :=
  { type := t.type, text := t.text }

/-! ## Theorems -/

/-- Running the bracket checker over a concatenation runs it over the two
parts in sequence. -/
theorem dlgRun_append (s : Nat) (xs ys : List Token) :
    dlgRun s (xs ++ ys) =
      match dlgRun s xs with
      | some s2 => dlgRun s2 ys
      | none => none := by
  induction xs generalizing s with
  | nil => simp [dlgRun]
  | cons t ts ih =>
    simp only [List.cons_append, dlgRun]
    cases dlgStep s t.type with
    | none => rfl
    | some s2 => exact ih s2

/-- One step of the checker over a cons. -/
theorem dlgRun_cons (s : Nat) (t : Token) (ts : List Token) :
    dlgRun s (t :: ts) =
      match dlgStep s t.type with
      | some s2 => dlgRun s2 ts
      | none => none := rfl

/-- A content token type keeps the checker in any inside-a-block state. -/
theorem dlgStep_content (s : Nat) (hs : s = 1 ∨ s = 3 ∨ s = 5) (ty : TType)
    (hty : ty = TType.character ∨ ty = TType.parenthetical ∨ ty = TType.dialogue) :
    dlgStep s ty = some s := by
  rcases hs with rfl | rfl | rfl <;> rcases hty with rfl | rfl | rfl <;> rfl

/-- Content tokens keep the checker in any inside-a-block state. -/
theorem dlgRun_content (s : Nat) (hs : s = 1 ∨ s = 3 ∨ s = 5) :
    ∀ (b : List Token), b.all isContentTok = true → dlgRun s b = some s := by
  intro b
  induction b with
  | nil => intro _; simp [dlgRun]
  | cons t ts ih =>
    intro hb
    simp only [List.all_cons, Bool.and_eq_true] at hb
    have h1 := hb.1
    simp only [isContentTok, Bool.or_eq_true, beq_iff_eq] at h1
    rw [or_assoc] at h1
    rw [dlgRun_cons, dlgStep_content s hs t.type h1]
    exact ih hb.2

/-- Flushing a buffered block of content tokens returns the checker to the
outside state. -/
theorem dlgRun_flush (buf : Option (List Token))
    (hb : ∀ b, buf = some b → b.all isContentTok = true) :
    dlgRun 0 (flushBuf buf) = some 0 := by
  cases buf with
  | none => simp [flushBuf, dlgRun]
  | some b =>
    have hbc := hb b rfl
    show dlgRun 0 (mkTok .dialogue_begin [] :: (b ++ [mkTok .dialogue_end []])) = some 0
    rw [dlgRun_cons]
    show dlgRun 1 (b ++ [mkTok .dialogue_end []]) = some 0
    rw [dlgRun_append, dlgRun_content 1 (Or.inl rfl) b hbc]
    rfl

/-- A dual wrap of two blocks of content tokens returns the checker to the
outside state. -/
theorem dlgRun_dual (b1 b2 : List Token) (h1 : b1.all isContentTok = true)
    (h2 : b2.all isContentTok = true) : dlgRun 0 (dualWrap b1 b2) = some 0 := by
  have e : dualWrap b1 b2 =
      mkTok .dual_dialogue_begin [] :: mkTok .dialogue_begin [] ::
        (b1 ++ (mkTok .dialogue_end [] :: mkTok .dialogue_begin [] ::
          (b2 ++ [mkTok .dialogue_end [], mkTok .dual_dialogue_end []]))) := by
    simp [dualWrap]
  rw [e, dlgRun_cons]
  show dlgRun 2 (mkTok .dialogue_begin [] :: (b1 ++ _)) = some 0
  rw [dlgRun_cons]
  show dlgRun 3 (b1 ++ _) = some 0
  rw [dlgRun_append, dlgRun_content 3 (Or.inr (Or.inl rfl)) b1 h1]
  show dlgRun 3 (mkTok .dialogue_end [] :: mkTok .dialogue_begin [] :: (b2 ++ _)) = some 0
  rw [dlgRun_cons]
  show dlgRun 4 (mkTok .dialogue_begin [] :: (b2 ++ _)) = some 0
  rw [dlgRun_cons]
  show dlgRun 5 (b2 ++ _) = some 0
  rw [dlgRun_append, dlgRun_content 5 (Or.inr (Or.inr rfl)) b2 h2]
  rfl

/-- The interior of a built dialogue block holds only content tokens. -/
theorem mkBlock_content (c : List Char) (d : Bool) (body : List String) :
    (mkBlock c d body).all isContentTok = true := by
  simp only [mkBlock, List.all_cons, Bool.and_eq_true]
  refine ⟨by simp [isContentTok], ?_⟩
  rw [List.all_eq_true]
  intro x hx
  simp only [mkBlockBody, List.mem_map] at hx
  obtain ⟨l, _, rfl⟩ := hx
  by_cases h : hasPrefixL ['('] (jsTrimList l.data) = true ∧ hasSuffixL [')'] (jsTrimList l.data) = true <;>
    simp [h, isContentTok, mkTok]

/-- Every single token emitted for a non-cue paragraph is legal in the
outside state of the checker. -/
theorem classifyPar_plain_safe (p : List String) :
    match classifyPar p with
    | ParClass.plainTok tk => dlgStep 0 tk.type = some 0
    | _ => True := by
  cases p with
  | nil => trivial
  | cons l body =>
    cases htl : jsTrimList l.data with
    | nil => simp only [classifyPar, htl]
    | cons c rest =>
      simp only [classifyPar, htl]
      by_cases hA : c = '!'
      · rw [if_pos hA]; exact rfl
      rw [if_neg hA]
      by_cases hB : c = '@'
      · rw [if_pos hB]; trivial
      rw [if_neg hB]
      by_cases hC : c = '~' ∧ body.isEmpty = true
      · rw [if_pos hC]; exact rfl
      rw [if_neg hC]
      by_cases hD : c = '>' ∧ body.isEmpty = true
      · rw [if_pos hD]
        by_cases hD2 : hasSuffixL ['<'] rest = true
        · rw [if_pos hD2]; exact rfl
        · rw [if_neg hD2]; exact rfl
      rw [if_neg hD]
      by_cases hE : c = '.' ∧ ¬ hasPrefixL ['.'] rest = true ∧ body.isEmpty = true
      · rw [if_pos hE]; exact rfl
      rw [if_neg hE]
      by_cases hF : ((c :: rest).all fun d => decide (d = '=')) = true ∧
          3 ≤ (c :: rest).length ∧ body.isEmpty = true
      · rw [if_pos hF]; exact rfl
      rw [if_neg hF]
      by_cases hG : c = '#' ∧ body.isEmpty = true
      · rw [if_pos hG]; exact rfl
      rw [if_neg hG]
      by_cases hH : c = '=' ∧ body.isEmpty = true
      · rw [if_pos hH]; exact rfl
      rw [if_neg hH]
      by_cases hI : sceneStartSpec (c :: rest) = true ∧ body.isEmpty = true
      · rw [if_pos hI]; exact rfl
      rw [if_neg hI]
      by_cases hJ : isCueLineSpec (c :: rest) = true
      · rw [if_pos hJ]; trivial
      rw [if_neg hJ]
      by_cases hK : ((c :: rest).all fun d => !d.isLower) = true ∧
          hasSuffixL ['T', 'O', ':'] (c :: rest) = true ∧ body.isEmpty = true
      · rw [if_pos hK]; exact rfl
      rw [if_neg hK]
      exact rfl

/-- The paragraph loop of the lexer, started with a buffer holding only
content tokens, produces a stream the bracket checker accepts. -/
theorem lexPars_wf (ps : List (List String)) : ∀ (buf : Option (List Token)),
    (∀ b, buf = some b → b.all isContentTok = true) →
    dlgRun 0 (lexPars ps buf) = some 0 := by
  induction ps with
  | nil => intro buf hb; exact dlgRun_flush buf hb
  | cons p ps ih =>
    intro buf hb
    simp only [lexPars]
    cases hcp : classifyPar p with
    | skip =>
      show dlgRun 0 (flushBuf buf ++ lexPars ps none) = some 0
      rw [dlgRun_append, dlgRun_flush buf hb]
      exact ih none (by intro b hb2; cases hb2)
    | plainTok tk =>
      have hstep := classifyPar_plain_safe p
      rw [hcp] at hstep
      show dlgRun 0 (flushBuf buf ++ tk :: lexPars ps none) = some 0
      have e : flushBuf buf ++ tk :: lexPars ps none =
          flushBuf buf ++ [tk] ++ lexPars ps none := by simp
      rw [e, dlgRun_append, dlgRun_append, dlgRun_flush buf hb]
      show (match dlgRun 0 [tk] with
            | some s2 => dlgRun s2 (lexPars ps none)
            | none => none) = some 0
      rw [dlgRun_cons, hstep]
      show dlgRun 0 (lexPars ps none) = some 0
      exact ih none (by intro b hb2; cases hb2)
    | cue c d body =>
      cases d with
      | true =>
        cases buf with
        | some b =>
          show dlgRun 0 (dualWrap b (mkBlock c true body) ++ lexPars ps none) = some 0
          rw [dlgRun_append,
              dlgRun_dual b (mkBlock c true body) (hb b rfl) (mkBlock_content c true body)]
          exact ih none (by intro b2 hb2; cases hb2)
        | none =>
          show dlgRun 0 (lexPars ps (some (mkBlock c true body))) = some 0
          exact ih (some (mkBlock c true body))
            (by intro b2 hb2; cases hb2; exact mkBlock_content c true body)
      | false =>
        show dlgRun 0 (flushBuf buf ++ lexPars ps (some (mkBlock c false body))) = some 0
        rw [dlgRun_append, dlgRun_flush buf hb]
        exact ih (some (mkBlock c false body))
          (by intro b2 hb2; cases hb2; exact mkBlock_content c false body)

/-- C1: for every input text, in the token sequence produced by parse,
every dialogue_begin has exactly one matching dialogue_end, the tokens
between a matched pair are only character, parenthetical and dialogue
tokens, dialogue blocks never nest, and every dual_dialogue_begin and
dual_dialogue_end pair wraps exactly two complete adjacent dialogue blocks
— the bracket checker `dlgStep`, which enforces exactly these shapes,
accepts the stream. -/
theorem parse_dialogue_wellFormed (text : String) :
    dialogueWellFormed (parse text) = true := by
  have h := lexPars_wf (paragraphsOf text) none (by intro b hb; cases hb)
  simp [dialogueWellFormed, parse, h]

/-! ### The editor classifier: claims C2 through C6 -/

/-- A line passing the scene-heading test cannot pass the character-cue
test: the fourth character is a period, which is neither an uppercase
letter nor whitespace. -/
theorem scene_imp_not_charCue (t : List Char) (hS : sceneHeadTest t = true) :
    charCueTest t = false := by
  rcases t with _ | ⟨c0, _ | ⟨c1, _ | ⟨c2, _ | ⟨c3, t4⟩⟩⟩⟩ <;>
    simp only [sceneHeadTest, hasPrefixL, Bool.or_eq_true, Bool.and_eq_true,
      beq_iff_eq] at hS
  · exact absurd hS (by simp)
  · exact absurd hS (by simp)
  · exact absurd hS (by simp)
  · exact absurd hS (by simp)
  · have h3 : c3 = '.' := by
      rcases hS with (⟨_, _, _, h, _⟩ | ⟨_, _, _, h, _⟩) | ⟨_, _, _, h, _⟩ <;> exact h.symm
    subst h3
    simp [charCueTest, List.all_cons, isUpperAZ, jsWhitespaceChar]

/-- A line passing the parenthetical test starts with an opening
parenthesis. -/
theorem parenTest_head (t : List Char) (h : parenTest t = true) :
    ∃ cs, t = '(' :: cs := by
  cases t with
  | nil => simp [parenTest, hasPrefixL] at h
  | cons c cs =>
    simp only [parenTest, hasPrefixL, Bool.and_eq_true, beq_iff_eq] at h
    exact ⟨cs, by rw [h.1.1.1.1]⟩

/-- The scene-heading test fails on any list not starting with an
uppercase I or E. -/
theorem sceneHeadTest_head (c : Char) (cs : List Char) (hI : c ≠ 'I') (hE : c ≠ 'E') :
    sceneHeadTest (c :: cs) = false := by
  simp [sceneHeadTest, hasPrefixL, beq_iff_eq, Ne.symm hI, Ne.symm hE]

/-- The character-cue test fails on any list whose head is not an
uppercase letter. -/
theorem charCueTest_head (c : Char) (cs : List Char) (h : isUpperAZ c = false) :
    charCueTest (c :: cs) = false := by
  simp [charCueTest, h]

/-- The parenthetical test fails on any list not starting with an opening
parenthesis. -/
theorem parenTest_head_ne (c : Char) (cs : List Char) (h : c ≠ '(') :
    parenTest (c :: cs) = false := by
  simp [parenTest, hasPrefixL, beq_iff_eq, Ne.symm h]

/-- The anchored transition alternatives fail on any list whose head
differs from the head of the alternative. -/
theorem transAltTest_head (p : Char) (ps : List Char) (c : Char) (cs : List Char)
    (h : p ≠ c) : transAltTest (p :: ps) (c :: cs) = false := by
  simp [transAltTest, hasPrefixL, beq_iff_eq, h]

/-- On a line whose first character is a forced-marker character, the
transition rule reduces to its unanchored trailing-TO-colon half. -/
theorem transTest_forced (c : Char) (cs : List Char)
    (h : c = '!' ∨ c = '@' ∨ c = '~' ∨ c = '>' ∨ c = '.') :
    transTest (c :: cs) = hasSuffixL "TO:".data (c :: cs) := by
  have hF : transAltTest "FADE".data (c :: cs) = false := by
    apply transAltTest_head
    rcases h with rfl | rfl | rfl | rfl | rfl <;> decide
  have hC : transAltTest "CUT".data (c :: cs) = false := by
    apply transAltTest_head
    rcases h with rfl | rfl | rfl | rfl | rfl <;> decide
  have hD : transAltTest "DISSOLVE".data (c :: cs) = false := by
    apply transAltTest_head
    rcases h with rfl | rfl | rfl | rfl | rfl <;> decide
  have hS : transAltTest "SMASH CUT".data (c :: cs) = false := by
    apply transAltTest_head
    rcases h with rfl | rfl | rfl | rfl | rfl <;> decide
  simp [transTest, hF, hC, hD, hS]

/-- C2, counterexample: the claim says a line carrying a forced-type
marker is classified as the forced type.  The line with the forced
character marker at sign before JANE must then be a character cue, but
`detectElementType` has no forced-marker rules at all and classifies it
as action; likewise the forced-transition marker before CUT TO yields
action rather than transition. -/
theorem detect_forced_marker_counterexample :
    detectElementType "@JANE" = ElementType.action ∧
    detectElementType ">CUT TO" = ElementType.action ∧
    ElementType.action ≠ ElementType.character ∧
    ElementType.action ≠ ElementType.transition := by decide

/-- C2, amended: the classifier of `ScreenplayEditor.tsx` and the FDX
converter implements no forced-type markers.  A line whose trimmed text
begins with one of the marker characters exclamation, at, tilde, greater
than or period is never matched by the scene-heading, character or
parenthetical rules; it is classified transition exactly when it ends in
TO-colon, and action otherwise. -/
theorem detect_forced_marker_ignored (s : String) (c : Char) (cs : List Char)
    (h1 : jsTrimList s.data = c :: cs)
    (h2 : c = '!' ∨ c = '@' ∨ c = '~' ∨ c = '>' ∨ c = '.') :
    detectElementType s =
      (if hasSuffixL "TO:".data (c :: cs) then ElementType.transition
       else ElementType.action) := by
  have hS : sceneHeadTest (c :: cs) = false := by
    apply sceneHeadTest_head <;> rcases h2 with rfl | rfl | rfl | rfl | rfl <;> decide
  have hC : charCueTest (c :: cs) = false := by
    apply charCueTest_head
    rcases h2 with rfl | rfl | rfl | rfl | rfl <;> decide
  have hP : parenTest (c :: cs) = false := by
    apply parenTest_head_ne
    rcases h2 with rfl | rfl | rfl | rfl | rfl <;> decide
  have hT := transTest_forced c cs h2
  simp only [detectElementType, h1, detectCore, hS, hC, hP, hT]
  simp

/-- C2, witness: the amended theorem applied to the forced-character line
at-JANE, which the classifier sends to action. -/
theorem detect_forced_marker_ignored_witness :
    detectElementType "@JANE" = ElementType.action := by
  have h := detect_forced_marker_ignored "@JANE" '@' ['J', 'A', 'N', 'E']
    (by decide) (Or.inr (Or.inl rfl))
  simpa using h

/-- C3, counterexample: the claim says an all-uppercase line with no
trailing sentence punctuation is classified character even when it ends
with the dual-dialogue simultaneity marker.  The caret is neither an
uppercase letter nor whitespace, so the character regex rejects the cue
JANE-caret and the classifier falls through to action. -/
theorem detect_caret_cue_counterexample :
    detectElementType "JANE^" = ElementType.action ∧
    ElementType.action ≠ ElementType.character := by decide

/-- C3, amended: every line whose trimmed text matches the character
pattern — an uppercase letter followed by uppercase letters and
whitespace only, not ending in a period — is classified character; such
text can never carry a scene-heading prefix, which requires a period.  A
cue ending in the simultaneity marker does not match the pattern and is
not classified character. -/
theorem detect_charCue (s : String) (h : charCueTest (jsTrimList s.data) = true) :
    detectElementType s = ElementType.character := by
  have hne : jsTrimList s.data ≠ [] := by
    intro he
    rw [he] at h
    simp [charCueTest] at h
  have hS : sceneHeadTest (jsTrimList s.data) = false := by
    cases hS2 : sceneHeadTest (jsTrimList s.data) with
    | false => rfl
    | true => rw [scene_imp_not_charCue _ hS2] at h; cases h
  simp [detectElementType, detectCore, hne, hS, h]

/-- C3, witness: the amended theorem applied to the plain cue JANE. -/
theorem detect_charCue_witness : detectElementType "JANE" = ElementType.character :=
  detect_charCue "JANE" (by decide)

/-- C4, counterexample: the claim says a line that is not all-uppercase is
never classified as a transition, but the unanchored trailing-TO-colon
regex of the source accepts the lowercase line fade TO, classified
transition. -/
theorem detect_transition_counterexample :
    detectElementType "fade TO:" = ElementType.transition ∧
    ("fade TO:".data.any Char.isLower = true) := by decide

/-- C4, amended: classification returns transition exactly for lines that
fail the empty, scene-heading, character and parenthetical rules and whose
trimmed text either begins with FADE, CUT, DISSOLVE or SMASH CUT and ends
with a colon, or ends with TO-colon; being all-uppercase is not
required. -/
theorem detect_transition_iff (s : String) :
    detectElementType s = ElementType.transition ↔
      (jsTrimList s.data ≠ [] ∧ sceneHeadTest (jsTrimList s.data) = false ∧
       charCueTest (jsTrimList s.data) = false ∧ parenTest (jsTrimList s.data) = false ∧
       transTest (jsTrimList s.data) = true) := by
  simp only [detectElementType, detectCore]
  split_ifs with h1 h2 h3 h4 h5 <;> simp_all

/-- C5, counterexample: the claim says a parenthesized line is classified
parenthetical only when it immediately follows a character cue or dialogue
line of an open dialogue block.  In the Slate editor's line-by-line
conversion, a parenthesized line directly after a plain action line — no
cue, no open dialogue block — is still classified parenthetical. -/
theorem detect_paren_context_counterexample :
    (textToSlateValue "He runs.\n(quietly)").map SlateNode.type =
      [ElementType.action, ElementType.parenthetical] ∧
    ElementType.parenthetical ≠ ElementType.action := by decide

/-- C5, amended: the classification of a parenthesized line is
context-free.  Every line whose trimmed text is wrapped in parentheses is
classified parenthetical by `detectElementType`, regardless of any
preceding line; the classifiers receive a single line and cannot consult
the surrounding dialogue block. -/
theorem detect_paren_context_free (s : String)
    (h : parenTest (jsTrimList s.data) = true) :
    detectElementType s = ElementType.parenthetical := by
  obtain ⟨cs, hcs⟩ := parenTest_head _ h
  have hS : sceneHeadTest (jsTrimList s.data) = false := by
    rw [hcs]; exact sceneHeadTest_head _ _ (by decide) (by decide)
  have hC : charCueTest (jsTrimList s.data) = false := by
    rw [hcs]; exact charCueTest_head _ _ (by decide)
  have hne : jsTrimList s.data ≠ [] := by rw [hcs]; simp
  simp [detectElementType, detectCore, hne, hS, hC, h]

/-- C5, witness: the amended theorem applied to a lone parenthesized
line with no preceding cue. -/
theorem detect_paren_context_free_witness :
    detectElementType "(quietly)" = ElementType.parenthetical :=
  detect_paren_context_free "(quietly)" (by decide)

/-- C6: classification is total — the codomain is the closed element-type
enumeration and the function is defined by structural recursion, so every
line, including empty or malformed text, receives a type — and every line
matched by none of the detection rules is assigned the action role. -/
theorem detect_default_action (s : String)
    (h : sceneHeadTest (jsTrimList s.data) = false ∧
         charCueTest (jsTrimList s.data) = false ∧
         parenTest (jsTrimList s.data) = false ∧
         transTest (jsTrimList s.data) = false) :
    detectElementType s = ElementType.action := by
  by_cases hne : jsTrimList s.data = []
  · simp [detectElementType, detectCore, hne]
  · simp [detectElementType, detectCore, hne, h.1, h.2.1, h.2.2.1, h.2.2.2]

/-- C6, witness: the default theorem applied to the empty line and to an
unrecognized prose line. -/
theorem detect_default_action_witness :
    detectElementType "" = ElementType.action ∧
    detectElementType "she hesitates…" = ElementType.action :=
  ⟨detect_default_action "" (by decide),
   detect_default_action "she hesitates…" (by decide)⟩

/-! ### Scene board: claim C7 -/

/-- A token the scene board does not read is a no-op of the extraction
loop. -/
theorem extractScenesGo_skip (t : Token) (hrel : sceneRelevant t = false)
    (l : List Token) (cur : Option Scene) (c : Nat) :
    extractScenesGo (t :: l) cur c = extractScenesGo l cur c := by
  simp only [sceneRelevant, Bool.or_eq_false_iff, decide_eq_false_iff_not] at hrel
  have h1 : ¬ t.type = TType.scene_heading := hrel.1.1
  have h2 : ¬ t.type = TType.character := hrel.1.2
  have h3 : ¬ t.type = TType.action := hrel.2
  cases cur with
  | none => simp [extractScenesGo, h1]
  | some s => simp [extractScenesGo, h1, h2, h3]

/-- The extraction loop only sees the tokens the scene board reads. -/
theorem extractScenesGo_filter (ts : List Token) :
    ∀ (cur : Option Scene) (c : Nat),
      extractScenesGo ts cur c = extractScenesGo (ts.filter sceneRelevant) cur c := by
  induction ts with
  | nil => intro cur c; rfl
  | cons t ts ih =>
    intro cur c
    cases hrel : sceneRelevant t with
    | true =>
      rw [show (t :: ts).filter sceneRelevant = t :: ts.filter sceneRelevant by
        simp [List.filter, hrel]]
      cases cur with
      | none => simp only [extractScenesGo]; split_ifs <;> simp [ih]
      | some s => simp only [extractScenesGo]; split_ifs <;> simp [ih]
    | false =>
      rw [show (t :: ts).filter sceneRelevant = ts.filter sceneRelevant by
        simp [List.filter, hrel]]
      rw [extractScenesGo_skip t hrel]
      exact ih cur c

/-- C7: the scene-board extraction reads only scene_heading, character and
action tokens — any two token lists agreeing on the subsequence of those
tokens, in particular a list with dialogue, parenthetical, transition or
bracket tokens inserted or removed, extract to the same scene list, with
identical headings, locations, times of day, descriptions, characters and
page numbers. -/
theorem extractScenes_frame (ts1 ts2 : List Token)
    (h : ts1.filter sceneRelevant = ts2.filter sceneRelevant) :
    extractScenes ts1 = extractScenes ts2 := by
  rw [extractScenes, extractScenes, extractScenesGo_filter ts1, extractScenesGo_filter ts2, h]

/-- C7, witness: inserting a dialogue, a parenthetical and a transition
token into a scene leaves the extracted board unchanged. -/
theorem extractScenes_frame_witness :
    extractScenes
        [⟨.scene_heading, "INT. HOUSE - DAY", none, none, none, none⟩,
         ⟨.dialogue, "Hello there.", none, none, none, none⟩,
         ⟨.character, "JANE", none, none, none, none⟩,
         ⟨.parenthetical, "(softly)", none, none, none, none⟩,
         ⟨.action, "She waits.", none, none, none, none⟩,
         ⟨.transition, "CUT TO:", none, none, none, none⟩] =
      extractScenes
        [⟨.scene_heading, "INT. HOUSE - DAY", none, none, none, none⟩,
         ⟨.character, "JANE", none, none, none, none⟩,
         ⟨.action, "She waits.", none, none, none, none⟩] :=
  extractScenes_frame _ _ (by decide)

/-! ### Statistics: claims C8 and C9 -/

/-- Basic statistics read only the canonical projection of each token. -/
theorem calculateBasicStats_canon (ts : List Token) :
    calculateBasicStats (ts.map canonTT) = calculateBasicStats ts := by
  simp only [calculateBasicStats, countDialogueWords, List.filter_map, List.foldl_map,
    List.map_map]
  rfl

/-- Element statistics read only the canonical projection of each token. -/
theorem calculateElementStats_canon (ts : List Token) :
    calculateElementStats (ts.map canonTT) = calculateElementStats ts := by
  simp only [calculateElementStats, List.filter_map, List.length_map]
  rfl

/-- Character statistics read only the canonical projection of each
token. -/
theorem calculateCharacterStats_canon (ts : List Token) :
    calculateCharacterStats (ts.map canonTT) = calculateCharacterStats ts := by
  simp only [calculateCharacterStats, countDialogueWords, List.filter_map,
    List.foldl_map]
  rfl

/-- Scene statistics read only the canonical projection of each token. -/
theorem calculateSceneStats_canon (ts : List Token) :
    calculateSceneStats (ts.map canonTT) = calculateSceneStats ts := by
  simp only [calculateSceneStats, List.filter_map, List.foldl_map]
  rfl

/-- Dialogue statistics read only the canonical projection of each
token. -/
theorem calculateDialogueStats_canon (ts : List Token) :
    calculateDialogueStats (ts.map canonTT) = calculateDialogueStats ts := by
  simp only [calculateDialogueStats, countAllWords, List.filter_map, List.foldl_map]
  rfl

/-- The full statistics read only the canonical projection of each
token. -/
theorem calculateStatistics_canon (ts : List Token) :
    calculateStatistics (ts.map canonTT) = calculateStatistics ts := by
  simp only [calculateStatistics, calculateBasicStats_canon, calculateElementStats_canon,
    calculateCharacterStats_canon, calculateSceneStats_canon, calculateDialogueStats_canon]

/-- C8: the statistics computation depends only on the type and text
fields — for every two token lists of equal length whose elements agree
pairwise on type and text, `calculateStatistics` returns identical
statistics, whatever the html, dual, sceneNumber and depth fields hold. -/
theorem calculateStatistics_ext (ts1 ts2 : List Token)
    (h : List.Forall₂ (fun a b => a.type = b.type ∧ a.text = b.text) ts1 ts2) :
    calculateStatistics ts1 = calculateStatistics ts2 := by
  have hmap : ts1.map canonTT = ts2.map canonTT := by
    induction h with
    | nil => rfl
    | cons ha _ ih => simp [canonTT, ha.1, ha.2, ih]
  calc calculateStatistics ts1
      = calculateStatistics (ts1.map canonTT) := (calculateStatistics_canon ts1).symm
    _ = calculateStatistics (ts2.map canonTT) := by rw [hmap]
    _ = calculateStatistics ts2 := calculateStatistics_canon ts2

/-- C8, witness: two singleton lists agreeing on type and text but with
different html and dual fields produce identical statistics. -/
theorem calculateStatistics_ext_witness :
    calculateStatistics [⟨.dialogue, "Hi there.", some "<p>Hi there.</p>", none, none, none⟩] =
      calculateStatistics [⟨.dialogue, "Hi there.", none, some true, some "7", some 2⟩] :=
  calculateStatistics_ext _ _ (List.Forall₂.cons ⟨rfl, rfl⟩ List.Forall₂.nil)

/-- C9: for every token list, including the empty one, the page count is
at least one — the source takes the maximum of one and the ceiling — so
`getQuickStats` never reports zero pages. -/
theorem pageCount_at_least_one (ts : List Token) :
    1 ≤ (calculateStatistics ts).pageCount ∧ 1 ≤ (getQuickStats ts).pages := by
  have h : 1 ≤ (calculateBasicStats ts).pageCount := by
    show (1 : Int) ≤ max 1 _
    exact le_max_left 1 _
  exact ⟨h, h⟩

/-! ### Version store: claim C10 -/

/-- Updating a map at a key with the value it already holds is the
identity. -/
theorem updF_self (f : String → Option (List VersionEntry)) (k : String)
    (v : List VersionEntry) (h : f k = some v) : updF f k v = f := by
  funext x
  by_cases hx : x = k
  · rw [updF, if_pos hx, hx, h]
  · rw [updF, if_neg hx]

/-- Reading back the updated key. -/
theorem updF_get (f : String → Option (List VersionEntry)) (k : String)
    (v : List VersionEntry) : updF f k v k = some v := by
  simp [updF]

/-- After any save with a positive versions bound, the saved script's
versions array exists and its head carries the hash of the saved content,
and its undo and redo arrays exist. -/
theorem saveVersion_head (st : VersionStoreState) (hmax : 1 ≤ st.maxVersions)
    (sid content : String) (op : VOp) (desc : Option String) (ts : Nat) (nid : String) :
    ∃ V w U R,
      (saveVersion st sid content op desc ts nid).versions sid = some V ∧
      V.head? = some w ∧ w.contentHash = simpleHash content ∧
      (saveVersion st sid content op desc ts nid).undoStack sid = some U ∧
      (saveVersion st sid content op desc ts nid).redoStack sid = some R := by
  by_cases hskip :
      (match ((st.versions sid).getD []).head? with
       | some lastVersion => lastVersion.contentHash == simpleHash content
       | none => false) = true
  · have e : saveVersion st sid content op desc ts nid =
        { st with
            versions := updF st.versions sid ((st.versions sid).getD [])
            undoStack := updF st.undoStack sid ((st.undoStack sid).getD [])
            redoStack := updF st.redoStack sid ((st.redoStack sid).getD []) } := by
      simp only [saveVersion]
      rw [if_pos hskip]
    cases hh : ((st.versions sid).getD []).head? with
    | none => rw [hh] at hskip; cases hskip
    | some lv =>
      rw [hh] at hskip
      exact ⟨(st.versions sid).getD [], lv, (st.undoStack sid).getD [],
        (st.redoStack sid).getD [],
        by rw [e]; exact updF_get _ _ _, hh, beq_iff_eq.mp hskip,
        by rw [e]; exact updF_get _ _ _, by rw [e]; exact updF_get _ _ _⟩
  · set newVersion : VersionEntry :=
      { id := nid, scriptId := sid, timestamp := ts, content := content,
        author := "User", operation := op, contentHash := simpleHash content,
        description := desc } with hnv
    set vers2 := newVersion :: (st.versions sid).getD [] with hv2
    set vers3 := if st.maxVersions < vers2.length then vers2.take st.maxVersions
      else vers2 with hv3
    have e : (saveVersion st sid content op desc ts nid).versions =
        updF st.versions sid vers3 := by
      simp only [saveVersion]
      rw [if_neg hskip]
    have e2 : ∃ U, (saveVersion st sid content op desc ts nid).undoStack sid = some U := by
      simp only [saveVersion]
      rw [if_neg hskip]
      exact ⟨_, updF_get _ _ _⟩
    have e3 : ∃ R, (saveVersion st sid content op desc ts nid).redoStack sid = some R := by
      simp only [saveVersion]
      rw [if_neg hskip]
      exact ⟨_, updF_get _ _ _⟩
    obtain ⟨U, hU⟩ := e2
    obtain ⟨R, hR⟩ := e3
    refine ⟨vers3, newVersion, U, R, ?_, ?_, rfl, hU, hR⟩
    · rw [e]; exact updF_get _ _ _
    · obtain ⟨k, hk⟩ : ∃ k, st.maxVersions = k + 1 :=
        ⟨st.maxVersions - 1, by omega⟩
      rw [hv3, hk]
      split_ifs with hlen
      · rw [hv2, List.take_succ_cons]; rfl
      · rw [hv2]; rfl

/-- A save whose content hash is already at the head of an initialised
store is a no-op. -/
theorem saveVersion_noop (st : VersionStoreState) (sid content : String) (op : VOp)
    (desc : Option String) (ts : Nat) (nid : String) (V U R : List VersionEntry)
    (w : VersionEntry) (hV : st.versions sid = some V) (hw : V.head? = some w)
    (hh : w.contentHash = simpleHash content) (hU : st.undoStack sid = some U)
    (hR : st.redoStack sid = some R) :
    saveVersion st sid content op desc ts nid = st := by
  have hskip :
      (match ((st.versions sid).getD []).head? with
       | some lastVersion => lastVersion.contentHash == simpleHash content
       | none => false) = true := by
    rw [hV]
    show (match V.head? with
          | some lastVersion => lastVersion.contentHash == simpleHash content
          | none => false) = true
    rw [hw]
    exact beq_iff_eq.mpr hh
  simp only [saveVersion, if_pos hskip]
  rw [hV, hU, hR]
  show ({ st with
      versions := updF st.versions sid V
      undoStack := updF st.undoStack sid U
      redoStack := updF st.redoStack sid R } : VersionStoreState) = st
  rw [updF_self _ _ _ hV, updF_self _ _ _ hU, updF_self _ _ _ hR]

set_option maxRecDepth 4000 in
/-- C10, counterexample: the claim quantifies over every store state, but
in a state whose maxVersions bound is zero the versions array is trimmed
to empty on every save, the matching-hash guard never fires, and a second
save of identical content grows the undo stack again: the store after the
second call differs from the store after the first. -/
theorem saveVersion_idempotent_counterexample :
    (saveVersion (saveVersion ⟨fun _ => none, fun _ => none, fun _ => none, 0, 30⟩
          "s" "hello" VOp.edit none 1 "a") "s" "hello" VOp.edit none 2 "b").undoStack "s" ≠
      (saveVersion ⟨fun _ => none, fun _ => none, fun _ => none, 0, 30⟩
          "s" "hello" VOp.edit none 1 "a").undoStack "s" := by
  decide

/-- C10, amended: on every store state whose versions bound is at least
one — every state the application can construct, the shipped
configurations bound history at twenty to two hundred entries — a second
saveVersion with the same content is a no-op: the hash of the content
equals the hash at the head of the versions array, so the versions, undo
and redo maps are left exactly as after the first call. -/
theorem saveVersion_idempotent (st : VersionStoreState) (hmax : 1 ≤ st.maxVersions)
    (sid content : String) (op : VOp) (desc : Option String)
    (ts1 ts2 : Nat) (id1 id2 : String) :
    saveVersion (saveVersion st sid content op desc ts1 id1) sid content op desc ts2 id2 =
      saveVersion st sid content op desc ts1 id1 := by
  obtain ⟨V, w, U, R, hV, hw, hh, hU, hR⟩ :=
    saveVersion_head st hmax sid content op desc ts1 id1
  exact saveVersion_noop _ sid content op desc ts2 id2 V U R w hV hw hh hU hR

/-- C10, witness: the amended theorem applied to the empty store with the
shipped bound of fifty versions; the second identical save leaves the
store of the first. -/
theorem saveVersion_idempotent_witness :
    saveVersion (saveVersion ⟨fun _ => none, fun _ => none, fun _ => none, 50, 30⟩
        "s1" "FADE IN:" VOp.save none 10 "a") "s1" "FADE IN:" VOp.save none 20 "b" =
      saveVersion ⟨fun _ => none, fun _ => none, fun _ => none, 50, 30⟩
        "s1" "FADE IN:" VOp.save none 10 "a" :=
  saveVersion_idempotent _ (by decide) "s1" "FADE IN:" VOp.save none 10 20 "a" "b"

end ScriptAIble
